import Mathlib

/-!
Verification of the kalbot signal/paper-trading engine.

Shallow embedding of the core algorithmic functions of the repository
(`kalbot/signals_repo.py`, `kalbot/paper_execution.py`,
`kalbot/settlement_repo.py`). Python floats are modelled as exact
rationals; the transcendental float helpers `math.erf` and
`math.sqrt(2.0)` are passed in as abstract parameters (`erf`, `sqrt2`)
since their float values are not exactly representable.
-/

namespace Kalbot

/-- `signals_repo._clamp`: clamp `value` into `[low, high]`. -/
def clamp (value low high : ℚ) : ℚ :=
  max low (min high value)

/-- `signals_repo._derive_playbook_action`: pass on low confidence, else
lean with the sign of the edge once it clears the threshold. -/
def derive_playbook_action (edge confidence edge_threshold : ℚ) : String :=
  if confidence < 0.58 then "pass"
  else if edge_threshold ≤ edge then "lean_yes"
  else if edge ≤ -edge_threshold then "lean_no"
  else "pass"

/-- `_contracts_for_notional` (identical in `signals_repo.py` and
`paper_execution.py`): floor the affordable contract count, cap it,
and return 0 on any non-positive input. -/
def contracts_for_notional (entry_price max_notional : ℚ) (max_contracts : ℤ) : ℤ :=
  if entry_price ≤ 0 ∨ max_notional ≤ 0 ∨ max_contracts ≤ 0 then 0
  else max 0 (min ⌊max_notional / entry_price⌋ max_contracts)

/-- The trained low-temperature model artifact (`low_temp_model.py`):
the fields of the JSON dict that `_resolve_sigma_f` reads.
`global_sigma_f` is optional because the Python code reads it with
`model.get("global_sigma_f", 3.5)`. -/
structure LowTempModel where
  samples : ℕ
  global_sigma_f : Option ℚ
  station_sigma_f : List (String × ℚ)
deriving DecidableEq

/-- `signals_repo._resolve_sigma_f`: per-station sigma, else global
sigma (default 3.5), each floored at 1.5; plain 3.5 with no model. -/
def resolve_sigma_f (model : Option LowTempModel) (station_id : String) : ℚ :=
  match model with
  | none => 3.5
  | some m =>
    match m.station_sigma_f.lookup station_id with
    | some s => max 1.5 s
    | none => max 1.5 (m.global_sigma_f.getD 3.5)

/-- Order/position side, the `'yes'` / `'no'` strings of the source. -/
inductive Side where
  | yes
  | no
deriving DecidableEq

/-- The realized-P&L `CASE` expression of the `UPDATE` in
`settlement_repo._close_open_positions_for_settlements`. -/
def close_position_realized_pnl (side : Side) (settled_yes : Bool)
    (entry_price : ℚ) (contracts : ℤ) : ℚ :=
  match side, settled_yes with
  | .yes, true => (1 - entry_price) * contracts
  | .yes, false => (0 - entry_price) * contracts
  | .no, false => (1 - entry_price) * contracts
  | .no, true => (0 - entry_price) * contracts

/-- Follows the spec's words (§4.7): payout is 1 exactly when the
position's side matches the settled outcome, else 0. -/
def settlementPayout (side : Side) (settled_yes : Bool) : ℚ :=
  if (side = .yes ∧ settled_yes = true) ∨ (side = .no ∧ settled_yes = false) then 1 else 0

/-! ### Market condition parser (`signals_repo._parse_low_temp_condition`)

The Python code uses `re.search` with three patterns. Each pattern is a
number / comparison scan in which the greedy quantifiers never need to
backtrack (every `\d+` is followed by a non-digit requirement), so
`re.search` is faithfully modelled by trying an anchored match at every
position from the left and taking the first success. The optional
trailing group `(?:\s*(?:°|deg)\s*F?)?` can neither fail nor change the
captured numbers, so it is not modelled. -/

/-- Numeric value of a digit list (most significant first). -/
def digitsToNat (ds : List Char) : ℕ :=
  ds.foldl (fun n c => 10 * n + (c.toNat - '0'.toNat)) 0

/-- Exact rational value of `intDs . fracDs`, as `float()` of the
captured decimal literal. -/
def decimalToRat (intDs fracDs : List Char) : ℚ :=
  (digitsToNat intDs : ℚ) + (digitsToNat fracDs : ℚ) / 10 ^ fracDs.length

/-- Anchored match of the regex fragment `\d+(?:\.\d+)?` at the head of
`s`; returns the captured value and the remaining characters. -/
def matchNumber (s : List Char) : Option (ℚ × List Char) :=
  let ds := s.takeWhile (fun c => c.isDigit)
  let rest := s.drop ds.length
  if ds.isEmpty then none
  else
    match rest with
    | '.' :: r2 =>
      let fs := r2.takeWhile (fun c => c.isDigit)
      if fs.isEmpty then some ((digitsToNat ds : ℚ), rest)
      else some (decimalToRat ds fs, r2.drop fs.length)
    | _ => some ((digitsToNat ds : ℚ), rest)

/-- `title.replace("Â°", "°")` on the character list. -/
def normalizeDegrees : List Char → List Char
  | [] => []
  | 'Â' :: '°' :: rest => '°' :: normalizeDegrees rest
  | c :: rest => c :: normalizeDegrees rest

/-- Anchored match of `(\d+(?:\.\d+)?)\s*-\s*(\d+(?:\.\d+)?)` at the
head of `s`, returning the two captured numbers in textual order. -/
def matchRangeAt (s : List Char) : Option (ℚ × ℚ) :=
  match matchNumber s with
  | none => none
  | some (a, r1) =>
    match r1.dropWhile (fun c => c.isWhitespace) with
    | '-' :: r3 =>
      match matchNumber (r3.dropWhile (fun c => c.isWhitespace)) with
      | none => none
      | some (b, _) => some (a, b)
    | _ => none

/-- `re.search` for the range pattern: leftmost successful position. -/
def searchRange : List Char → Option (ℚ × ℚ)
  | [] => none
  | c :: rest =>
    match matchRangeAt (c :: rest) with
    | some r => some r
    | none => searchRange rest

/-- Anchored match of `sym\s*(\d+(?:\.\d+)?)` at the head of `s`. -/
def matchCmpAt (sym : Char) (s : List Char) : Option ℚ :=
  match s with
  | [] => none
  | c :: r1 =>
    if c = sym then (matchNumber (r1.dropWhile (fun c => c.isWhitespace))).map (fun p => p.1)
    else none

/-- `re.search` for the `<`/`>` patterns: leftmost successful position. -/
def searchCmp (sym : Char) : List Char → Option ℚ
  | [] => none
  | c :: rest =>
    match matchCmpAt sym (c :: rest) with
    | some r => some r
    | none => searchCmp sym rest

/-- A parsed market condition, mirroring the Python dict
`{"kind": ..., "low": ..., "high": ...}` (with `high` set to `None`
for `lt` / `gt` conditions). -/
structure Condition where
  kind : String
  low : ℚ
  high : Option ℚ
deriving DecidableEq

/-- `signals_repo._parse_low_temp_condition`: range pattern first, then
`< n`, then `> n`; `none` when nothing matches. The two range numbers
are recorded in textual order. -/
def parse_low_temp_condition (title : String) : Option Condition :=
  let s := normalizeDegrees title.data
  match searchRange s with
  | some (a, b) => some ⟨"range", a, some b⟩
  | none =>
    match searchCmp '<' s with
    | some t => some ⟨"lt", t, none⟩
    | none =>
      match searchCmp '>' s with
      | some t => some ⟨"gt", t, none⟩
      | none => none

/-- `signals_repo._extract_temperature_threshold`: the regex
`-T(\d+(?:\.\d+)?)$` — a `-T<number>` suffix that consumes the rest of
the ticker. -/
def extract_temperature_threshold (market_ticker : String) : Option ℚ :=
  go market_ticker.data
where
  /-- Try an anchored `-T\d+(\.\d+)?$` match at each position (no match
  can start at a `T`, so scanning may resume after the `-T` pair). -/
  go : List Char → Option ℚ
    | [] => none
    | '-' :: 'T' :: rest =>
      match matchNumber rest with
      | some (v, []) => some v
      | _ => go rest
    | _ :: rest => go rest

/-- `signals_repo._extract_low_temp_city_code`: the anchored regex
`^KXLOWT([A-Z]+)-` (greedy `[A-Z]+` never backtracks usefully here,
since `-` is not an uppercase letter). -/
def extract_low_temp_city_code (market_ticker : String) : Option String :=
  match market_ticker.data with
  | 'K' :: 'X' :: 'L' :: 'O' :: 'W' :: 'T' :: rest =>
    let letters := rest.takeWhile (fun c => c.isUpper)
    if letters.isEmpty then none
    else
      match rest.drop letters.length with
      | '-' :: _ => some (String.mk letters)
      | _ => none
  | _ => none

/-- `signals_repo._station_candidates`: fixed station alias table. -/
def station_candidates (city_code : String) : List String :=
  let base := city_code.toUpper
  match base with
  | "PHIL" => ["KPHL", "PHIL", "KPHIL"]
  | "NYC" => ["KNYC", "KJFK", "KLGA", "KEWR", "NYC"]
  | "LAX" => ["KLAX", "LAX"]
  | "CHI" => ["KORD", "KMDW", "CHI"]
  | "MIA" => ["KMIA", "MIA"]
  | "SF" => ["KSFO", "SFO"]
  | "AUS" => ["KAUS", "KATT", "AUS"]
  | _ => ["K" ++ base, base]

/-- `signals_repo._to_fahrenheit`. -/
def to_fahrenheit (value : ℚ) (unit : String) : ℚ :=
  let upper := unit.toUpper
  if upper = "F" ∨ upper = "DEGF" ∨ upper = "WMOUNIT:DEGF" then value
  else if upper = "C" ∨ upper = "DEGC" ∨ upper = "WMOUNIT:DEGC" then value * 9 / 5 + 32
  else value

/-- `signals_repo._normal_cdf`, relative to abstract float helpers
`erf` (for `math.erf`) and `sqrt2` (for `math.sqrt(2.0)`). -/
def normal_cdf (erf : ℚ → ℚ) (sqrt2 : ℚ) (x mu sigma : ℚ) : ℚ :=
  let sigma1 := max 0.000001 sigma
  0.5 * (1 + erf ((x - mu) / (sigma1 * sqrt2)))

/-- `signals_repo._condition_probability`. The `none` result models the
`TypeError` Python would raise on `float(None)` for a range condition
without a `high` bound (unreachable from the parser). -/
def condition_probability (erf : ℚ → ℚ) (sqrt2 : ℚ) (condition : Condition)
    (mu_f sigma_f : ℚ) : Option ℚ :=
  if condition.kind = "lt" then some (normal_cdf erf sqrt2 condition.low mu_f sigma_f)
  else if condition.kind = "gt" then some (1 - normal_cdf erf sqrt2 condition.low mu_f sigma_f)
  else if condition.kind = "range" then
    match condition.high with
    | some high =>
      some (normal_cdf erf sqrt2 (max condition.low high) mu_f sigma_f
        - normal_cdf erf sqrt2 (min condition.low high) mu_f sigma_f)
    | none => none
  else some 0.5

/-! ### Candidate evaluator (`signals_repo._evaluate_low_temp_market_candidate`) -/

/-- One market row as fetched by `publish_live_low_temp_signals`
(`market_volume` is `Option` because the Python code reads it with
`market["market_volume"] or 0`). -/
structure MarketRow where
  market_ticker : String
  title : String
  market_implied_yes : ℚ
  market_volume : Option ℚ
deriving DecidableEq

/-- One `weather_forecasts` row as consumed by the evaluator. -/
structure ForecastRow where
  station_id : String
  value : ℚ
  unit : String
deriving DecidableEq

/-- The numeric fields of the candidate dict built by
`_evaluate_low_temp_market_candidate` (the formatted rationale /
metadata strings are presentation only and are not modelled). -/
structure SignalCandidate where
  market_ticker : String
  city_code : String
  condition : Condition
  market_volume : ℚ
  prob_yes : ℚ
  market_implied_yes : ℚ
  edge : ℚ
  confidence : ℚ
  ci_low : ℚ
  ci_high : ℚ
  has_forecast : Bool
  ranking_score : ℚ
deriving DecidableEq

/-- `signals_repo._evaluate_low_temp_market_candidate`, with the
database read modelled by the `rows` argument (the forecast rows the
embedded SQL query would return, in `valid_at` order). -/
def evaluate_low_temp_market_candidate (erf : ℚ → ℚ) (sqrt2 : ℚ)
    (market : MarketRow) (model : Option LowTempModel)
    (rows : List ForecastRow) : Option SignalCandidate :=
  let condition? : Option Condition :=
    match parse_low_temp_condition market.title with
    | some c => some c
    | none => (extract_temperature_threshold market.market_ticker).map
        (fun t => ⟨"gt", t, none⟩)
  match condition? with
  | none => none
  | some condition =>
    match extract_low_temp_city_code market.market_ticker with
    | none => none
    | some city_code =>
      let stations := station_candidates city_code
      let forecast_temps_f := rows.map (fun r => to_fahrenheit r.value r.unit)
      let projected_low_f := forecast_temps_f.min?
      let market_implied_yes := market.market_implied_yes
      let market_volume := market.market_volume.getD 0
      let station_id :=
        match rows with
        | r :: _ => r.station_id
        | [] => stations.headD ""
      let sigma_f := resolve_sigma_f model station_id
      let probConf? : Option (ℚ × ℚ) :=
        match projected_low_f with
        | some mu =>
          (condition_probability erf sqrt2 condition mu sigma_f).map (fun p0 =>
            let prob_yes := clamp p0 0.01 0.99
            let sample_bonus :=
              match model with
              | some m => min 0.1 ((m.samples : ℚ) / 500)
              | none => 0
            let confidence :=
              clamp (0.60 + min 0.25 (|prob_yes - market_implied_yes| * 1.5) + sample_bonus)
                0.55 0.97
            (prob_yes, confidence))
        | none => some (market_implied_yes, 0.55)
      probConf?.map (fun pc =>
        let prob_yes := pc.1
        let confidence := pc.2
        let spread := clamp (min 0.2 (sigma_f / 20)) 0.05 0.20
        let ci_low := clamp (prob_yes - spread) 0.01 0.99
        let ci_high := clamp (prob_yes + spread) 0.01 0.99
        let edge := prob_yes - market_implied_yes
        let has_forecast := projected_low_f.isSome
        let info_score := 1 - min 1 (|market_implied_yes - 0.5| * 2)
        let ranking_score :=
          |edge| + (if has_forecast then 0.2 else 0)
            + min 0.05 (market_volume / 20000) + 0.03 * info_score
        { market_ticker := market.market_ticker
          city_code := city_code
          condition := condition
          market_volume := market_volume
          prob_yes := prob_yes
          market_implied_yes := market_implied_yes
          edge := edge
          confidence := confidence
          ci_low := ci_low
          ci_high := ci_high
          has_forecast := has_forecast
          ranking_score := ranking_score })

/-! ### Diversified selector (`signals_repo._select_diversified_signals`) -/

/-- `str(candidate.get("city_code") or "UNKNOWN")`: an empty (falsy)
city code resolves to `"UNKNOWN"`. -/
def candidateCity (c : SignalCandidate) : String :=
  if c.city_code = "" then "UNKNOWN" else c.city_code

/-- Assoc-list lookup, the model of the `city_counts` dict access. -/
def lookupCount : List (String × ℕ) → String → Option ℕ
  | [], _ => none
  | (c, n) :: rest, city => if c = city then some n else lookupCount rest city

/-- `city_counts.get(city, 0)` for the assoc-list model of the dict. -/
def countOf (counts : List (String × ℕ)) (city : String) : ℕ :=
  (lookupCount counts city).getD 0

/-- `city_counts[city] = city_counts.get(city, 0) + 1`. -/
def bumpCount : List (String × ℕ) → String → List (String × ℕ)
  | [], city => [(city, 1)]
  | (c, n) :: rest, city =>
    if c = city then (c, n + 1) :: rest else (c, n) :: bumpCount rest city

/-- Pass 1 of the selector: take the first candidate of each unseen
city; the `Bool` result records whether the `limit` was reached (the
Python `return selected` inside the loop, which skips pass 2). -/
def selectPass1 (limit : ℕ) : List SignalCandidate → List SignalCandidate →
    List (String × ℕ) → List SignalCandidate × List (String × ℕ) × Bool
  | [], selected, counts => (selected, counts, false)
  | cand :: rest, selected, counts =>
    let city := candidateCity cand
    if (lookupCount counts city).isSome then selectPass1 limit rest selected counts
    else
      let selected1 := selected ++ [cand]
      let counts1 := bumpCount counts city
      if limit ≤ selected1.length then (selected1, counts1, true)
      else selectPass1 limit rest selected1 counts1

/-- Pass 2 of the selector: backfill remaining slots in rank order,
skipping already-selected candidates and cities at the per-city cap. -/
def selectPass2 (limit maxPerCity : ℕ) : List SignalCandidate →
    List SignalCandidate → List (String × ℕ) → List SignalCandidate
  | [], selected, _ => selected
  | cand :: rest, selected, counts =>
    if cand ∈ selected then selectPass2 limit maxPerCity rest selected counts
    else
      let city := candidateCity cand
      if maxPerCity ≤ countOf counts city then selectPass2 limit maxPerCity rest selected counts
      else
        let selected1 := selected ++ [cand]
        let counts1 := bumpCount counts city
        if limit ≤ selected1.length then selected1
        else selectPass2 limit maxPerCity rest selected1 counts1

/-- `signals_repo._select_diversified_signals` (a Python `limit <= 0`
collapses to `limit = 0` in this `ℕ` model). -/
def select_diversified_signals (candidates : List SignalCandidate)
    (limit : ℕ) (maxPerCity : ℕ) : List SignalCandidate :=
  if limit = 0 ∨ candidates = [] then []
  else
    match selectPass1 limit candidates [] [] with
    | (selected, _, true) => selected
    | (selected, counts, false) => selectPass2 limit maxPerCity candidates selected counts

/-- Number of selected candidates carrying a given city code. -/
def cityCount (selected : List SignalCandidate) (city : String) : ℕ :=
  selected.countP (fun c => candidateCity c = city)

/-- A minimal concrete candidate (distinct ticker, city, ranking
score), as used by the spec's selector example. -/
def exampleCandidate (ticker city : String) (score : ℚ) : SignalCandidate :=
  ⟨ticker, city, ⟨"gt", 0, none⟩, 0, 0, 0, 0, 0, 0, 0, false, score⟩

/-! ### Paper execution engine (`paper_execution.execute_paper_trades`) -/

/-- `paper_execution._edge_to_order`. -/
def edge_to_order (edge market_yes : ℚ) : Side × ℚ :=
  let clipped_market_yes := max 0.01 (min 0.99 market_yes)
  if 0 ≤ edge then (.yes, clipped_market_yes)
  else (.no, max 0.01 (min 0.99 (1 - clipped_market_yes)))

/-- The settings fields `execute_paper_trades` reads. -/
structure ExecSettings where
  max_daily_notional_usd : ℚ
  max_notional_per_signal_usd : ℚ
  max_contracts_per_order : ℤ
deriving DecidableEq

/-- One row of the candidate query (already filtered by
`ABS(edge) >= paper_edge_threshold` and ordered by descending edge
magnitude then ticker, as the SQL does). -/
structure TradeRow where
  market_id : ℕ
  edge : ℚ
  market_yes : ℚ
deriving DecidableEq

/-- One simulated fill (an `orders` + `positions` insert).
`remaining_before` is trace instrumentation: the daily budget still
available (`max_daily_notional_usd - spent_notional`) when the fill
was made. -/
structure Fill where
  market_id : ℕ
  side : Side
  entry_price : ℚ
  contracts : ℤ
  remaining_before : ℚ
deriving DecidableEq

/-- The `for row in rows` loop of `execute_paper_trades`: `openPos` is
the set of `(market_id, side)` pairs with an open position (the
`SELECT 1 FROM positions ... status = 'open'` check, updated by each
insert); returns the fills made and the final `spent_notional`. -/
def executePaperLoop (st : ExecSettings) : List TradeRow → List (ℕ × Side) → ℚ →
    List Fill × ℚ
  | [], _, spent => ([], spent)
  | row :: rest, openPos, spent =>
    let remaining_budget := st.max_daily_notional_usd - spent
    if remaining_budget ≤ 0 then ([], spent)
    else
      let so := edge_to_order row.edge row.market_yes
      let per_signal_budget := min st.max_notional_per_signal_usd remaining_budget
      let contracts := contracts_for_notional so.2 per_signal_budget st.max_contracts_per_order
      if contracts ≤ 0 then executePaperLoop st rest openPos spent
      else if (row.market_id, so.1) ∈ openPos then executePaperLoop st rest openPos spent
      else
        let spent1 := spent + contracts * so.2
        let res := executePaperLoop st rest ((row.market_id, so.1) :: openPos) spent1
        (⟨row.market_id, so.1, so.2, contracts, remaining_budget⟩ :: res.1, res.2)

/-- `paper_execution.execute_paper_trades` in `paper` mode: run the
loop from `spent_notional = 0.0` over the ranked candidate rows. -/
def execute_paper_trades (st : ExecSettings) (rows : List TradeRow)
    (openPos : List (ℕ × Side)) : List Fill × ℚ :=
  executePaperLoop st rows openPos 0

/-! ### Demo-signal fallback (`signals_repo.publish_best_signal_for_date`) -/

/-- The synthetic market ticker built by `publish_demo_signal_for_date`
for a run date `d` (the Python `run_date.isoformat()`). -/
def demoMarketTicker (runDate : String) : String :=
  "WEATHER-NYC-" ++ runDate ++ "-HIGH-GT-45F"

/-- The constants `publish_demo_signal_for_date` writes for the demo
market: snapshot quote, prediction, trade decision and signal rows. -/
structure DemoSignal where
  market_ticker : String
  title : String
  bid_yes : ℚ
  ask_yes : ℚ
  last_price_yes : ℚ
  volume : ℚ
  prob_yes : ℚ
  ci_low : ℚ
  ci_high : ℚ
  decision_edge : ℚ
  decision_threshold : ℚ
  approved : Bool
  confidence : ℚ
deriving DecidableEq

/-- The rows inserted by `publish_demo_signal_for_date`. -/
def demo_signal_rows (runDate : String) : DemoSignal :=
  { market_ticker := demoMarketTicker runDate
    title := "NYC high temperature above 45F on " ++ runDate ++ "?"
    bid_yes := 0.53
    ask_yes := 0.55
    last_price_yes := 0.54
    volume := 1200
    prob_yes := 0.61
    ci_low := 0.55
    ci_high := 0.67
    decision_edge := 0.07
    decision_threshold := 0.03
    approved := true
    confidence := 0.69 }

/-- The success message returned by `publish_demo_signal_for_date`. -/
def publish_demo_signal_for_date (runDate : String) : String :=
  "Published demo signal for " ++ demoMarketTicker runDate ++ "."

/-- `signals_repo.publish_best_signal_for_date`: try the live publisher
(whose outcome — success message, or a raised `SignalRepositoryError`
message — depends on the database and is passed in as `liveResult`),
and on a `SignalRepositoryError` fall back to the demo publisher. -/
def publish_best_signal_for_date (runDate : String)
    (liveResult : Except String String) : String :=
  match liveResult with
  | .ok msg => msg
  | .error _ => publish_demo_signal_for_date runDate

/-! ## Claims -/

/-- C1: for every forecast mean `mu` and `sigma`, `_condition_probability`
returns the Gaussian CDF (the `_normal_cdf` of the code, here relative
to the abstract float helpers `erf` / `sqrt2`) at the threshold for an
`lt` condition, one minus the CDF for a `gt` condition, and
`CDF(high) − CDF(low)` with the two bounds put in ascending order
(`max` / `min`) for a `range` condition. The three condition shapes
are exactly those the parser produces (`lt` / `gt` carry `high = none`,
`range` carries `high = some _`). -/
theorem C1_condition_probability (erf : ℚ → ℚ) (sqrt2 mu sigma low high : ℚ) :
    condition_probability erf sqrt2 ⟨"lt", low, none⟩ mu sigma
      = some (normal_cdf erf sqrt2 low mu sigma) ∧
    condition_probability erf sqrt2 ⟨"gt", low, none⟩ mu sigma
      = some (1 - normal_cdf erf sqrt2 low mu sigma) ∧
    condition_probability erf sqrt2 ⟨"range", low, some high⟩ mu sigma
      = some (normal_cdf erf sqrt2 (max low high) mu sigma
          - normal_cdf erf sqrt2 (min low high) mu sigma) := by
  refine ⟨rfl, rfl, rfl⟩

/-- C4: settlement reconciliation writes realized P&L
`(payout − entry_price) * contracts`, where the payout is 1 exactly
when the position's side matches the settled outcome and 0 otherwise,
over all four side/outcome combinations. -/
theorem C4_settlement_realized_pnl (side : Side) (settled_yes : Bool)
    (entry_price : ℚ) (contracts : ℤ) :
    close_position_realized_pnl side settled_yes entry_price contracts
      = (settlementPayout side settled_yes - entry_price) * contracts := by
  cases side <;> cases settled_yes <;>
    simp [close_position_realized_pnl, settlementPayout]

/-- C6: `_derive_playbook_action` returns `"pass"` whenever
`confidence < 0.58`; otherwise (for a positive threshold, which makes
the three edge cases disjoint) `"lean_yes"` when `edge ≥ threshold`,
`"lean_no"` when `edge ≤ −threshold`, and `"pass"` strictly between;
in particular edge 0.08 at confidence 0.7 and threshold 0.03 gives
`"lean_yes"` and the same edge at confidence 0.5 gives `"pass"`. -/
theorem C6_derive_playbook_action (edge confidence threshold : ℚ)
    (ht : 0 < threshold) :
    (confidence < 0.58 → derive_playbook_action edge confidence threshold = "pass") ∧
    (0.58 ≤ confidence → threshold ≤ edge →
      derive_playbook_action edge confidence threshold = "lean_yes") ∧
    (0.58 ≤ confidence → edge ≤ -threshold →
      derive_playbook_action edge confidence threshold = "lean_no") ∧
    (0.58 ≤ confidence → -threshold < edge → edge < threshold →
      derive_playbook_action edge confidence threshold = "pass") ∧
    derive_playbook_action 0.08 0.7 0.03 = "lean_yes" ∧
    derive_playbook_action 0.08 0.5 0.03 = "pass" := by
  refine ⟨?_, ?_, ?_, ?_, by norm_num [derive_playbook_action],
    by norm_num [derive_playbook_action]⟩ <;>
    · intros
      unfold derive_playbook_action
      split_ifs <;> first | rfl | linarith

/-- C6 witness: the general clauses applied at the spec's concrete
inputs. -/
theorem C6_derive_playbook_action_witness :
    derive_playbook_action 0.08 0.7 0.03 = "lean_yes" ∧
    derive_playbook_action 0.08 0.5 0.03 = "pass" :=
  ⟨(C6_derive_playbook_action 0.08 0.7 0.03 (by norm_num)).2.1 (by norm_num) (by norm_num),
   (C6_derive_playbook_action 0.08 0.5 0.03 (by norm_num)).1 (by norm_num)⟩

/-- C7: `_contracts_for_notional` equals
`min(floor(max_notional / entry_price), max_contracts)` when all three
arguments are positive, equals 0 whenever one of them is non-positive,
and gives 12 on the spec's example `(0.32, 300, 12)`. -/
theorem C7_contracts_for_notional :
    (∀ (e n : ℚ) (m : ℤ), 0 < e → 0 < n → 0 < m →
      contracts_for_notional e n m = min ⌊n / e⌋ m) ∧
    (∀ (e n : ℚ) (m : ℤ), e ≤ 0 ∨ n ≤ 0 ∨ m ≤ 0 →
      contracts_for_notional e n m = 0) ∧
    contracts_for_notional 0.32 300 12 = 12 := by
  have hfloor : ⌊(300 : ℚ) / 0.32⌋ = 937 := by
    rw [Int.floor_eq_iff]
    norm_num
  refine ⟨?_, ?_, by norm_num [contracts_for_notional, hfloor]⟩
  · intro e n m he hn hm
    rw [contracts_for_notional, if_neg (by push_neg; exact ⟨he, hn, hm⟩)]
    refine max_eq_right (le_min ?_ hm.le)
    exact Int.floor_nonneg.mpr (by positivity)
  · intro e n m h
    rw [contracts_for_notional, if_pos h]

/-- C7 witness: the positive clause at `(0.32, 300, 12)` and the
non-positive clause at a zero price. -/
theorem C7_contracts_for_notional_witness :
    contracts_for_notional 0.32 300 12 = min ⌊(300 : ℚ) / 0.32⌋ 12 ∧
    contracts_for_notional 0 300 12 = 0 :=
  ⟨C7_contracts_for_notional.1 0.32 300 12 (by norm_num) (by norm_num) (by norm_num),
   C7_contracts_for_notional.2.1 0 300 12 (Or.inl le_rfl)⟩

/-- C8: `_resolve_sigma_f` resolves the per-station trained sigma when
present, else the global trained sigma (dict default 3.5), else the
hardcoded 3.5°F fallback when no model exists, and the resolved sigma
is always at least 1.5°F. -/
theorem C8_resolve_sigma_f (model : Option LowTempModel) (station_id : String) :
    (model = none → resolve_sigma_f model station_id = 3.5) ∧
    (∀ m, model = some m →
      (∀ s, m.station_sigma_f.lookup station_id = some s →
        resolve_sigma_f model station_id = max 1.5 s) ∧
      (m.station_sigma_f.lookup station_id = none →
        resolve_sigma_f model station_id = max 1.5 (m.global_sigma_f.getD 3.5))) ∧
    1.5 ≤ resolve_sigma_f model station_id := by
  refine ⟨?_, ?_, ?_⟩
  · rintro rfl; rfl
  · rintro m rfl
    constructor
    · intro s hs
      simp [resolve_sigma_f, hs]
    · intro hs
      simp [resolve_sigma_f, hs]
  · cases model with
    | none => norm_num [resolve_sigma_f]
    | some m =>
      rw [resolve_sigma_f]
      cases m.station_sigma_f.lookup station_id with
      | none => exact le_max_left _ _
      | some s => exact le_max_left _ _

/-- C8 witness: a model with one station entry — the per-station sigma
wins for that station and the global sigma for any other. -/
theorem C8_resolve_sigma_f_witness :
    resolve_sigma_f (some ⟨120, some 2.7, [("KNYC", 4.2)]⟩) "KNYC" = max 1.5 4.2 ∧
    resolve_sigma_f (some ⟨120, some 2.7, [("KNYC", 4.2)]⟩) "KLAX"
      = max 1.5 ((some (2.7 : ℚ)).getD 3.5) ∧
    resolve_sigma_f none "KNYC" = 3.5 :=
  ⟨((C8_resolve_sigma_f (some ⟨120, some 2.7, [("KNYC", 4.2)]⟩) "KNYC").2.1
      ⟨120, some 2.7, [("KNYC", 4.2)]⟩ rfl).1 4.2 rfl,
   ((C8_resolve_sigma_f (some ⟨120, some 2.7, [("KNYC", 4.2)]⟩) "KLAX").2.1
      ⟨120, some 2.7, [("KNYC", 4.2)]⟩ rfl).2 rfl,
   (C8_resolve_sigma_f none "KNYC").1 rfl⟩

/-- C10: when live publishing fails with a `SignalRepositoryError`,
`publish_best_signal_for_date` swallows the error and publishes the
hard-coded demo signal — a synthetic NYC market with `prob_yes` 0.61
and confidence 0.69 — reporting success; a live success message is
returned unchanged. -/
theorem C10_demo_fallback (runDate err : String) :
    publish_best_signal_for_date runDate (.error err)
      = publish_demo_signal_for_date runDate ∧
    publish_demo_signal_for_date runDate
      = "Published demo signal for " ++ demoMarketTicker runDate ++ "." ∧
    demoMarketTicker runDate = "WEATHER-NYC-" ++ runDate ++ "-HIGH-GT-45F" ∧
    (demo_signal_rows runDate).market_ticker = demoMarketTicker runDate ∧
    (demo_signal_rows runDate).prob_yes = 0.61 ∧
    (demo_signal_rows runDate).confidence = 0.69 ∧
    (∀ okMsg : String, publish_best_signal_for_date runDate (.ok okMsg) = okMsg) :=
  ⟨rfl, rfl, rfl, rfl, rfl, rfl, fun _ => rfl⟩

/-- C5 counterexample: a title with reversed range bounds parses to a
`range` condition that keeps the textual order — `low = 55 > 48 = high`
— so the parsed result does not satisfy `low ≤ high`. -/
theorem C5_counterexample :
    parse_low_temp_condition "Will the minimum temperature be 55-48° tomorrow?"
      = some ⟨"range", 55, some 48⟩ ∧
    ¬ ((55 : ℚ) ≤ 48) :=
  ⟨by decide, by norm_num⟩

/-- C5 (amended): every condition produced by
`_parse_low_temp_condition` has exactly one of the shapes `lt` / `gt`
(threshold only) or `range` (with a `high` bound); a `range` records
its two numbers in textual order, so `low ≤ high` is *not* guaranteed
at parse time — the bounds are put in ascending order only where the
condition is consumed, inside `_condition_probability` (`min`/`max`). -/
theorem C5_parsed_condition_shapes :
    (∀ (title : String) (c : Condition), parse_low_temp_condition title = some c →
      (c.kind = "lt" ∧ c.high = none) ∨
      (c.kind = "gt" ∧ c.high = none) ∨
      (c.kind = "range" ∧ ∃ h, c.high = some h)) ∧
    (∀ (erf : ℚ → ℚ) (sqrt2 mu sigma low high : ℚ),
      condition_probability erf sqrt2 ⟨"range", low, some high⟩ mu sigma
        = some (normal_cdf erf sqrt2 (max low high) mu sigma
            - normal_cdf erf sqrt2 (min low high) mu sigma) ∧
      min low high ≤ max low high) := by
  constructor
  · intro title c h
    simp only [parse_low_temp_condition] at h
    split at h
    · injection h with h1
      subst h1
      exact Or.inr (Or.inr ⟨rfl, _, rfl⟩)
    · split at h
      · injection h with h1
        subst h1
        exact Or.inl ⟨rfl, rfl⟩
      · split at h
        · injection h with h1
          subst h1
          exact Or.inr (Or.inl ⟨rfl, rfl⟩)
        · cases h
  · intro erf sqrt2 mu sigma low high
    exact ⟨rfl, min_le_max⟩

/-- C5 witness: the shape clause applied to a concretely parsed `gt`
title. -/
theorem C5_parsed_condition_shapes_witness :
    ((⟨"gt", 54, none⟩ : Condition).kind = "lt" ∧ (⟨"gt", 54, none⟩ : Condition).high = none) ∨
    ((⟨"gt", 54, none⟩ : Condition).kind = "gt" ∧ (⟨"gt", 54, none⟩ : Condition).high = none) ∨
    ((⟨"gt", 54, none⟩ : Condition).kind = "range" ∧
      ∃ h, (⟨"gt", 54, none⟩ : Condition).high = some h) :=
  C5_parsed_condition_shapes.1 "Will the minimum temperature be >54° on Feb 17, 2026?"
    ⟨"gt", 54, none⟩ (by decide)

/-- Effect of a `bumpCount` on each city's count. -/
theorem countOf_bumpCount (counts : List (String × ℕ)) (city city' : String) :
    countOf (bumpCount counts city) city'
      = if city' = city then countOf counts city' + 1 else countOf counts city' := by
  induction counts with
  | nil =>
    by_cases h : city' = city
    · subst h; simp [bumpCount, countOf, lookupCount]
    · simp [bumpCount, countOf, lookupCount, h, Ne.symm h]
  | cons hd tl ih =>
    obtain ⟨c, n⟩ := hd
    by_cases hc : c = city
    · subst hc
      by_cases h : city' = c
      · subst h; simp [bumpCount, countOf, lookupCount]
      · simp [bumpCount, countOf, lookupCount, h, Ne.symm h]
    · by_cases h : c = city'
      · subst h
        simp [bumpCount, countOf, lookupCount, hc, Ne.symm hc]
      · simpa [bumpCount, countOf, lookupCount, hc, h] using ih

/-- A city absent from the counts dictionary has count zero. -/
theorem countOf_eq_zero_of_lookup_none (counts : List (String × ℕ)) (city : String)
    (h : (lookupCount counts city).isSome = false) : countOf counts city = 0 := by
  rw [countOf]
  cases hl : lookupCount counts city with
  | none => rfl
  | some n => rw [hl] at h; simp at h

/-- Appending one candidate adds one to its city's selection count. -/
theorem cityCount_append_single (sel : List SignalCandidate) (cand : SignalCandidate)
    (city : String) :
    cityCount (sel ++ [cand]) city
      = cityCount sel city + (if candidateCity cand = city then 1 else 0) := by
  simp [cityCount, List.countP_append, List.countP_cons]

/-- Invariants of selector pass 1: selection counts track the counts
dictionary, every city is taken at most once, the selection never
exceeds the limit, and a `false` flag means the limit was not hit. -/
theorem selectPass1_spec (limit : ℕ) (cands : List SignalCandidate) :
    ∀ (sel : List SignalCandidate) (counts : List (String × ℕ)),
    (∀ city, cityCount sel city = countOf counts city) →
    (∀ city, countOf counts city ≤ 1) →
    sel.length < limit →
    (∀ city, cityCount (selectPass1 limit cands sel counts).1 city
        = countOf (selectPass1 limit cands sel counts).2.1 city) ∧
    (∀ city, countOf (selectPass1 limit cands sel counts).2.1 city ≤ 1) ∧
    (selectPass1 limit cands sel counts).1.length ≤ limit ∧
    ((selectPass1 limit cands sel counts).2.2 = false →
      (selectPass1 limit cands sel counts).1.length < limit) := by
  induction cands with
  | nil =>
    intro sel counts hinv hle hlen
    exact ⟨hinv, hle, hlen.le, fun _ => hlen⟩
  | cons cand rest ih =>
    intro sel counts hinv hle hlen
    rw [selectPass1]
    by_cases hseen : (lookupCount counts (candidateCity cand)).isSome
    · simpa [hseen] using ih sel counts hinv hle hlen
    · rw [Bool.not_eq_true] at hseen
      have hinv1 : ∀ city, cityCount (sel ++ [cand]) city
          = countOf (bumpCount counts (candidateCity cand)) city := by
        intro city
        rw [cityCount_append_single, countOf_bumpCount, hinv city]
        by_cases h : city = candidateCity cand <;> simp [h, eq_comm]
      have hle1 : ∀ city, countOf (bumpCount counts (candidateCity cand)) city ≤ 1 := by
        intro city
        rw [countOf_bumpCount]
        by_cases h : city = candidateCity cand
        · subst h
          rw [if_pos rfl, countOf_eq_zero_of_lookup_none counts _ hseen]
        · rw [if_neg h]; exact hle city
      by_cases hlim : limit ≤ (sel ++ [cand]).length
      · have hlena : (sel ++ [cand]).length ≤ limit := by
          simp only [List.length_append, List.length_singleton]
          omega
        simp only [hseen, Bool.false_eq_true, if_false, if_pos hlim]
        exact ⟨hinv1, hle1, hlena, fun hc => by cases hc⟩
      · simp only [hseen, Bool.false_eq_true, if_false, if_neg hlim]
        exact ih (sel ++ [cand]) (bumpCount counts (candidateCity cand)) hinv1 hle1
          (lt_of_not_le hlim)

/-- Invariants of selector pass 2: given accurate, cap-respecting
counts and a selection below the limit, the backfilled selection
respects the per-city cap and the limit. -/
theorem selectPass2_spec (limit maxPerCity : ℕ) (cands : List SignalCandidate) :
    ∀ (sel : List SignalCandidate) (counts : List (String × ℕ)),
    (∀ city, cityCount sel city = countOf counts city) →
    (∀ city, countOf counts city ≤ maxPerCity) →
    sel.length < limit →
    (∀ city, cityCount (selectPass2 limit maxPerCity cands sel counts) city ≤ maxPerCity) ∧
    (selectPass2 limit maxPerCity cands sel counts).length ≤ limit := by
  induction cands with
  | nil =>
    intro sel counts hinv hle hlen
    exact ⟨fun city => (hinv city).le.trans (hle city), hlen.le⟩
  | cons cand rest ih =>
    intro sel counts hinv hle hlen
    rw [selectPass2]
    by_cases hmem : cand ∈ sel
    · simpa [hmem] using ih sel counts hinv hle hlen
    · by_cases hcap : maxPerCity ≤ countOf counts (candidateCity cand)
      · simpa [hmem, hcap] using ih sel counts hinv hle hlen
      · have hinv1 : ∀ city, cityCount (sel ++ [cand]) city
            = countOf (bumpCount counts (candidateCity cand)) city := by
          intro city
          rw [cityCount_append_single, countOf_bumpCount, hinv city]
          by_cases h : city = candidateCity cand <;> simp [h, eq_comm]
        have hle1 : ∀ city, countOf (bumpCount counts (candidateCity cand)) city ≤ maxPerCity := by
          intro city
          rw [countOf_bumpCount]
          by_cases h : city = candidateCity cand
          · rw [if_pos h, h]; omega
          · rw [if_neg h]; exact hle city
        by_cases hlim : limit ≤ (sel ++ [cand]).length
        · have hlena : (sel ++ [cand]).length ≤ limit := by
            simp only [List.length_append, List.length_singleton]
            omega
          simp only [hmem, hcap, if_false, if_pos hlim]
          exact ⟨fun city => (hinv1 city).le.trans (hle1 city), hlena⟩
        · simp only [hmem, hcap, if_false, if_neg hlim]
          exact ih (sel ++ [cand]) (bumpCount counts (candidateCity cand)) hinv1 hle1
            (lt_of_not_le hlim)

/-- C2 (amended): for every candidate list, publish limit `N` and
per-city cap `K ≥ 1`, the two-pass diversified selector returns at
most `N` candidates with no city code appearing more than `K` times
(pass 1 itself takes one candidate per distinct city, so a cap of
`K = 0` is exceeded — see the counterexample); on the spec's example
`[LAX:0.9, LAX:0.8, AUS:0.7, PHIL:0.6]` with limit 3 and cap 2 it
returns `[LAX:0.9, AUS:0.7, PHIL:0.6]`. -/
theorem C2_diversified_selection (cands : List SignalCandidate) (limit maxPerCity : ℕ)
    (hK : 1 ≤ maxPerCity) :
    (select_diversified_signals cands limit maxPerCity).length ≤ limit ∧
    (∀ city, cityCount (select_diversified_signals cands limit maxPerCity) city ≤ maxPerCity) ∧
    select_diversified_signals
      [exampleCandidate "KXLOWTLAX-1" "LAX" 0.9, exampleCandidate "KXLOWTLAX-2" "LAX" 0.8,
       exampleCandidate "KXLOWTAUS-1" "AUS" 0.7, exampleCandidate "KXLOWTPHIL-1" "PHIL" 0.6] 3 2
      = [exampleCandidate "KXLOWTLAX-1" "LAX" 0.9, exampleCandidate "KXLOWTAUS-1" "AUS" 0.7,
         exampleCandidate "KXLOWTPHIL-1" "PHIL" 0.6] := by
  have hexample :
      select_diversified_signals
        [exampleCandidate "KXLOWTLAX-1" "LAX" 0.9, exampleCandidate "KXLOWTLAX-2" "LAX" 0.8,
         exampleCandidate "KXLOWTAUS-1" "AUS" 0.7, exampleCandidate "KXLOWTPHIL-1" "PHIL" 0.6] 3 2
        = [exampleCandidate "KXLOWTLAX-1" "LAX" 0.9, exampleCandidate "KXLOWTAUS-1" "AUS" 0.7,
           exampleCandidate "KXLOWTPHIL-1" "PHIL" 0.6] := by
    simp [select_diversified_signals, selectPass1, selectPass2, exampleCandidate,
      candidateCity, lookupCount, bumpCount, countOf]
  by_cases hdeg : limit = 0 ∨ cands = []
  · have hz : select_diversified_signals cands limit maxPerCity = [] := by
      rw [select_diversified_signals, if_pos hdeg]
    rw [hz]
    refine ⟨Nat.zero_le _, fun city => by simp [cityCount], hexample⟩
  · push_neg at hdeg
    have hlim : 0 < limit := Nat.pos_of_ne_zero hdeg.1
    have hstep := selectPass1_spec limit cands [] []
      (fun city => by simp [cityCount, countOf, lookupCount])
      (fun city => by simp [countOf, lookupCount]) (by simpa using hlim)
    rw [select_diversified_signals, if_neg (by push_neg; exact hdeg)]
    rcases hr : selectPass1 limit cands [] [] with ⟨r1, r2, flag⟩
    rw [hr] at hstep
    cases flag with
    | true =>
      exact ⟨hstep.2.2.1, fun city =>
        (hstep.1 city).le.trans ((hstep.2.1 city).trans hK), hexample⟩
    | false =>
      have hp2 := selectPass2_spec limit maxPerCity cands r1 r2 hstep.1
        (fun city => (hstep.2.1 city).trans hK) (hstep.2.2.2 rfl)
      exact ⟨hp2.2, hp2.1, hexample⟩

/-- C2 counterexample: with per-city cap `K = 0` (and limit 1), pass 1
still selects the first LAX candidate, so LAX appears once — more than
`K` times. -/
theorem C2_counterexample :
    select_diversified_signals [exampleCandidate "KXLOWTLAX-1" "LAX" 0.9] 1 0
      = [exampleCandidate "KXLOWTLAX-1" "LAX" 0.9] ∧
    cityCount (select_diversified_signals [exampleCandidate "KXLOWTLAX-1" "LAX" 0.9] 1 0)
      "LAX" = 1 ∧
    ¬ (cityCount (select_diversified_signals [exampleCandidate "KXLOWTLAX-1" "LAX" 0.9] 1 0)
        "LAX" ≤ 0) := by
  have h : select_diversified_signals [exampleCandidate "KXLOWTLAX-1" "LAX" 0.9] 1 0
      = [exampleCandidate "KXLOWTLAX-1" "LAX" 0.9] := by
    simp [select_diversified_signals, selectPass1, selectPass2, exampleCandidate,
      candidateCity, lookupCount, bumpCount, countOf]
  refine ⟨h, ?_, ?_⟩ <;> rw [h] <;> simp [cityCount, exampleCandidate, candidateCity]

/-- C2 witness: the amended bound applied to the spec's example pool
with cap 2. -/
theorem C2_diversified_selection_witness :
    (select_diversified_signals
      [exampleCandidate "KXLOWTLAX-1" "LAX" 0.9, exampleCandidate "KXLOWTLAX-2" "LAX" 0.8,
       exampleCandidate "KXLOWTAUS-1" "AUS" 0.7, exampleCandidate "KXLOWTPHIL-1" "PHIL" 0.6]
      3 2).length ≤ 3 ∧
    (∀ city, cityCount (select_diversified_signals
      [exampleCandidate "KXLOWTLAX-1" "LAX" 0.9, exampleCandidate "KXLOWTLAX-2" "LAX" 0.8,
       exampleCandidate "KXLOWTAUS-1" "AUS" 0.7, exampleCandidate "KXLOWTPHIL-1" "PHIL" 0.6]
      3 2) city ≤ 2) :=
  ⟨(C2_diversified_selection _ 3 2 (by norm_num)).1,
   (C2_diversified_selection _ 3 2 (by norm_num)).2.1⟩

/-- A positive contract count implies the spent notional fits inside
the notional bound used to size it. -/
theorem contracts_for_notional_mul_le (e n : ℚ) (m : ℤ)
    (h : 0 < contracts_for_notional e n m) :
    (contracts_for_notional e n m : ℚ) * e ≤ n := by
  by_cases hg : e ≤ 0 ∨ n ≤ 0 ∨ m ≤ 0
  · rw [contracts_for_notional, if_pos hg] at h
    exact absurd h (by norm_num)
  · push_neg at hg
    obtain ⟨he, hn, hm⟩ := hg
    rw [contracts_for_notional, if_neg (by push_neg; exact ⟨he, hn, hm⟩)]
    have hfl : (0 : ℤ) ≤ ⌊n / e⌋ := Int.floor_nonneg.mpr (by positivity)
    have hc : max 0 (min ⌊n / e⌋ m) ≤ ⌊n / e⌋ := max_le hfl (min_le_left _ _)
    calc ((max 0 (min ⌊n / e⌋ m) : ℤ) : ℚ) * e
        ≤ ((⌊n / e⌋ : ℤ) : ℚ) * e := by
          exact mul_le_mul_of_nonneg_right (by exact_mod_cast hc) he.le
      _ ≤ (n / e) * e := mul_le_mul_of_nonneg_right (Int.floor_le _) he.le
      _ = n := div_mul_cancel₀ n (ne_of_gt he)

/-- Loop invariant of `execute_paper_trades`: starting under the daily
cap, the final spend stays under the cap and equals the start plus the
sum of fill notionals, and each fill is made with budget remaining and
spends at most `min(per-signal cap, remaining budget)`. -/
theorem executePaperLoop_spec (st : ExecSettings) (rows : List TradeRow) :
    ∀ (openPos : List (ℕ × Side)) (spent : ℚ),
    spent ≤ st.max_daily_notional_usd →
    (executePaperLoop st rows openPos spent).2 ≤ st.max_daily_notional_usd ∧
    (executePaperLoop st rows openPos spent).2
      = spent + ((executePaperLoop st rows openPos spent).1.map
          (fun f => (f.contracts : ℚ) * f.entry_price)).sum ∧
    ∀ f ∈ (executePaperLoop st rows openPos spent).1,
      0 < f.remaining_before ∧
      (f.contracts : ℚ) * f.entry_price
        ≤ min st.max_notional_per_signal_usd f.remaining_before := by
  induction rows with
  | nil =>
    intro openPos spent hs
    simp [executePaperLoop, hs]
  | cons row rest ih =>
    intro openPos spent hs
    simp only [executePaperLoop]
    split_ifs with h1 h2 h3
    · exact ⟨hs, by simp, by simp⟩
    · simpa using ih openPos spent hs
    · simpa using ih openPos spent hs
    · have hcpos : 0 < contracts_for_notional (edge_to_order row.edge row.market_yes).2
          (min st.max_notional_per_signal_usd (st.max_daily_notional_usd - spent))
          st.max_contracts_per_order := lt_of_not_le h2
      have hnot := contracts_for_notional_mul_le _ _ _ hcpos
      have hrem : 0 < st.max_daily_notional_usd - spent := lt_of_not_le h1
      have hspent1 : spent + (contracts_for_notional (edge_to_order row.edge row.market_yes).2
          (min st.max_notional_per_signal_usd (st.max_daily_notional_usd - spent))
          st.max_contracts_per_order : ℚ) * (edge_to_order row.edge row.market_yes).2
          ≤ st.max_daily_notional_usd := by
        have : (contracts_for_notional (edge_to_order row.edge row.market_yes).2
            (min st.max_notional_per_signal_usd (st.max_daily_notional_usd - spent))
            st.max_contracts_per_order : ℚ) * (edge_to_order row.edge row.market_yes).2
            ≤ st.max_daily_notional_usd - spent :=
          hnot.trans (min_le_right _ _)
        linarith
      have hrec := ih ((row.market_id, (edge_to_order row.edge row.market_yes).1) :: openPos)
        _ hspent1
      refine ⟨hrec.1, ?_, ?_⟩
      · simp only [List.map_cons, List.sum_cons]
        rw [hrec.2.1]
        ring
      · intro f hf
        rcases List.mem_cons.mp hf with rfl | hf1
        · exact ⟨hrem, hnot⟩
        · exact hrec.2.2 f hf1

/-- C3: in a paper-execution run, every simulated fill's notional
(contracts × entry price) is at most the smaller of the per-signal cap
and the daily budget remaining when the fill is made, fills happen only
while budget remains (the loop breaks once it is exhausted), and the
total spend — the sum of all fill notionals — never exceeds the daily
notional cap. -/
theorem C3_paper_budget (st : ExecSettings) (rows : List TradeRow)
    (openPos : List (ℕ × Side)) (hcap : 0 ≤ st.max_daily_notional_usd) :
    (∀ f ∈ (execute_paper_trades st rows openPos).1,
      0 < f.remaining_before ∧
      (f.contracts : ℚ) * f.entry_price
        ≤ min st.max_notional_per_signal_usd f.remaining_before) ∧
    (execute_paper_trades st rows openPos).2
      = ((execute_paper_trades st rows openPos).1.map
          (fun f => (f.contracts : ℚ) * f.entry_price)).sum ∧
    (execute_paper_trades st rows openPos).2 ≤ st.max_daily_notional_usd := by
  have h := executePaperLoop_spec st rows openPos 0 hcap
  exact ⟨h.2.2, by simpa using h.2.1, h.1⟩

/-- C3 witness: the budget bounds at the default settings (daily cap
500, per-signal cap 125, 25 contracts) on a two-row candidate list. -/
theorem C3_paper_budget_witness :
    (∀ f ∈ (execute_paper_trades ⟨500, 125, 25⟩ [⟨1, 0.11, 0.41⟩, ⟨2, -0.07, 0.41⟩] []).1,
      0 < f.remaining_before ∧
      (f.contracts : ℚ) * f.entry_price ≤ min (125 : ℚ) f.remaining_before) ∧
    (execute_paper_trades ⟨500, 125, 25⟩ [⟨1, 0.11, 0.41⟩, ⟨2, -0.07, 0.41⟩] []).2
      = ((execute_paper_trades ⟨500, 125, 25⟩ [⟨1, 0.11, 0.41⟩, ⟨2, -0.07, 0.41⟩] []).1.map
          (fun f => (f.contracts : ℚ) * f.entry_price)).sum ∧
    (execute_paper_trades ⟨500, 125, 25⟩ [⟨1, 0.11, 0.41⟩, ⟨2, -0.07, 0.41⟩] []).2 ≤ 500 :=
  C3_paper_budget ⟨500, 125, 25⟩ [⟨1, 0.11, 0.41⟩, ⟨2, -0.07, 0.41⟩] [] (by norm_num)

/-- C9: a low-temp market whose condition and city code resolve but for
which no forecast row exists is not dropped and raises no error: the
evaluator returns a candidate mirroring the market-implied YES price
with confidence exactly 0.55. -/
theorem C9_no_forecast_fallback (erf : ℚ → ℚ) (sqrt2 : ℚ) (market : MarketRow)
    (model : Option LowTempModel)
    (hcond : (parse_low_temp_condition market.title).isSome = true ∨
      (extract_temperature_threshold market.market_ticker).isSome = true)
    (hcity : (extract_low_temp_city_code market.market_ticker).isSome = true) :
    ∃ cand, evaluate_low_temp_market_candidate erf sqrt2 market model [] = some cand ∧
      cand.prob_yes = market.market_implied_yes ∧
      cand.confidence = 0.55 ∧
      cand.has_forecast = false := by
  obtain ⟨city, hcity1⟩ := Option.isSome_iff_exists.mp hcity
  rw [evaluate_low_temp_market_candidate.eq_def]
  rcases hp : parse_low_temp_condition market.title with _ | c
  · rcases hcond with h | h
    · rw [hp] at h
      cases h
    · obtain ⟨t, ht⟩ := Option.isSome_iff_exists.mp h
      rw [ht]
      simp only [Option.map_some, hcity1]
      exact ⟨_, rfl, rfl, rfl, rfl⟩
  · simp only [hcity1]
    exact ⟨_, rfl, rfl, rfl, rfl⟩

/-- C9 witness: a live-shaped NYC market with no forecast rows mirrors
its market price 0.47 at confidence 0.55. -/
theorem C9_no_forecast_fallback_witness :
    ∃ cand, evaluate_low_temp_market_candidate (fun z => z) 2
      ⟨"KXLOWTNYC-26FEB17-T35", "Will the minimum temperature be >54° on Feb 17, 2026?",
        0.47, some 100⟩ none [] = some cand ∧
      cand.prob_yes = (⟨"KXLOWTNYC-26FEB17-T35",
        "Will the minimum temperature be >54° on Feb 17, 2026?", 0.47,
        some 100⟩ : MarketRow).market_implied_yes ∧
      cand.confidence = 0.55 ∧
      cand.has_forecast = false :=
  C9_no_forecast_fallback (fun z => z) 2
    ⟨"KXLOWTNYC-26FEB17-T35", "Will the minimum temperature be >54° on Feb 17, 2026?",
      0.47, some 100⟩ none (Or.inl (by decide)) (by decide)

end Kalbot
